import Mathlib

/-!
Formal model of the room/turn synchronization core of the "Truth or Dare"
multiplayer party game (React + Supabase).  The definitions below are a
shallow embedding of the client-side core logic:

- `handleNextTurn` / `nextPlayerIndex` / `findIndex` embed the turn-advance
  computation of `GamePage.tsx` (`handleNextTurn`): look up the index of the
  current player with `Array.findIndex` (which yields `-1` when missing),
  step to `(index + 1) % players.length`, and patch only `current_player_id`.
- `advanceTurnWrite` embeds the same computation as a store write, keeping
  the read snapshot and the written store row distinct, to reason about
  duplicate advance triggers racing on the shared `game_state` row.
- `handleTypeSelection` embeds the truth/dare prompt choice of
  `GamePage.tsx`: filter the catalog by type, fail with "No prompts found"
  when the filter is empty, otherwise write a catalog entry picked by a
  random index as `current_prompt_id`.
- `startGame` embeds the host's start-game action of `RoomLobbyPage`:
  set the room active, read at most 100 prompts (`.limit(100)`), fail with
  "No prompts available" on an empty read, then insert a `game_state` row
  for `players[0]` with a randomly indexed prompt.
- `handleJoinRoom` embeds the join flow of `JoinRoomPage`: validation,
  room lookup by code, already-active rejection, then the player insert.
- `fetchResponses` / `recordResponse` embed the response log: insert a
  trimmed response row, list the room's rows ordered by `created_at`
  descending.

Machine randomness (`Math.floor(Math.random() * n)`) is modelled by a
`Nat` parameter reduced modulo the list length, so that exactly the
indices `0 .. n-1` are reachable.  Timestamps are `Nat`s.
-/

/-- Status of a room or of a game state: `waiting`, `active` or `ended`
(the SQL CHECK constraint on `rooms.status` and `game_state.status`). -/
inductive RoomStatus where
  | waiting
  | active
  | ended
deriving Repr, DecidableEq

/-- Type of a prompt: `truth` or `dare` (CHECK constraint on `prompts.type`). -/
inductive PromptType where
  | truth
  | dare
deriving Repr, DecidableEq

/-- Row of the `rooms` table. -/
structure Room where
  id : Nat
  code : String
  status : RoomStatus
deriving Repr, DecidableEq

/-- Row of the `players` table (fields used by the core). -/
structure Player where
  id : Nat
  nickname : String
  room_id : Nat
  is_host : Bool
  turn_order : Int
deriving Repr, DecidableEq

/-- Row of the `prompts` table. -/
structure Prompt where
  id : Nat
  type : PromptType
  content : String
deriving Repr, DecidableEq

/-- Row of the `game_state` table (fields used by the core). -/
structure GameState where
  id : Nat
  room_id : Nat
  current_player_id : Nat
  current_prompt_id : Option Nat
  status : RoomStatus
deriving Repr, DecidableEq

/-- Row of the `responses` table. -/
structure ResponseRow where
  id : Nat
  room_id : Nat
  player_id : Nat
  prompt_id : Nat
  response : String
  created_at : Nat
deriving Repr, DecidableEq

/-- The shared persistent store (the Supabase tables the core touches). -/
structure Store where
  rooms : List Room
  players : List Player
  prompts : List Prompt
  gameStates : List GameState
deriving Repr, DecidableEq

/-- Index of the first player with the given id, if any
(the `Option`-valued core of JavaScript `Array.prototype.findIndex`). -/
def findIndexO : List Player → Nat → Option Nat
  | [], _ => none
  | p :: rest, pid =>
      if p.id = pid then some 0 else (findIndexO rest pid).map (· + 1)

/-- JavaScript `players.findIndex(p => p.id === pid)`: the index of the
first match, or `-1` when no player matches. -/
def findIndex (players : List Player) (pid : Nat) : Int :=
  match findIndexO players pid with
  | some i => (i : Int)
  | none => -1

/-- The next player index computed by `handleNextTurn`:
`(currentPlayerIndex + 1) % players.length`.  The numerator is `≥ 0`
(`findIndex ≥ -1`), so JavaScript `%` agrees with mathematical `emod`. -/
def nextPlayerIndex (players : List Player) (currentId : Nat) : Nat :=
  ((findIndex players currentId + 1) % (players.length : Int)).toNat

/-- Turn advance (`handleNextTurn` in `GamePage.tsx`).  Returns `none` on
the (unreachable) out-of-bounds indexing `players[nextPlayerIndex]`, which
in JavaScript would crash on `.id` of `undefined`; returns the state
unchanged when the roster is empty (the early `return` guard). -/
def handleNextTurn (players : List Player) (gs : GameState) : Option GameState :=
  if players.length = 0 then some gs
  else
    match players.get? (nextPlayerIndex players gs.current_player_id) with
    | some nextPlayer => some { gs with current_player_id := nextPlayer.id }
    | none => none

/-- Iterated turn advance: `advanceN players n gs` performs `n` consecutive
submit-and-advance cycles (only the advance mutates `game_state`). -/
def advanceN (players : List Player) : Nat → GameState → Option GameState
  | 0, gs => some gs
  | n + 1, gs => (handleNextTurn players gs).bind (advanceN players n)

/-- Turn advance as a write against the shared `game_state` row.  The next
player is computed from the triggering client's `snapshot` of the game
state, while the unconditional `update({current_player_id}).eq("room_id")`
patches whatever row the store currently holds (`store`). -/
def advanceTurnWrite (players : List Player) (snapshot store : GameState) :
    GameState :=
  if players.length = 0 then store
  else
    match players.get? (nextPlayerIndex players snapshot.current_player_id) with
    | some nextPlayer => { store with current_player_id := nextPlayer.id }
    | none => store

/-- Prompt-type choice (`handleTypeSelection` in `GamePage.tsx`): fetch the
prompts of the chosen type, throw `"No prompts found"` when there are none,
otherwise update `current_prompt_id` to a randomly indexed one.  The first
component is the stored game state after the call (unchanged on error, since
the throw precedes the update); the second is the surfaced error, if any. -/
def handleTypeSelection (catalog : List Prompt) (t : PromptType)
    (gs : GameState) (r : Nat) : GameState × Option String :=
  let prompts := catalog.filter (fun p => p.type = t)
  if h : prompts.length = 0 then
    (gs, some "No prompts found")
  else
    let randomPrompt := prompts.get ⟨r % prompts.length,
      Nat.mod_lt r (Nat.pos_of_ne_zero h)⟩
    ({ gs with current_prompt_id := some randomPrompt.id }, none)

/-- Insertion step for the store's `ORDER BY turn_order ASC`: keep earlier
rows whose `turn_order` is `≤` the inserted player's. -/
def insertByTurnOrder (p : Player) : List Player → List Player
  | [] => [p]
  | q :: rest =>
      if q.turn_order ≤ p.turn_order then q :: insertByTurnOrder p rest
      else p :: q :: rest

/-- The store's `ORDER BY turn_order ASC` on a list of players, as an
insertion sort. -/
def sortByTurnOrder : List Player → List Player
  | [] => []
  | p :: rest => insertByTurnOrder p (sortByTurnOrder rest)

/-- Roster fetch (`fetchPlayers`): the room's players ordered ascending by
`turn_order` (`.eq("room_id", roomId).order("turn_order")`). -/
def fetchPlayers (store : Store) (roomId : Nat) : List Player :=
  sortByTurnOrder (store.players.filter (fun p => p.room_id = roomId))

/-- The `rooms` update `update({status: "active"}).eq("id", roomId)`. -/
def setRoomStatusActive (rooms : List Room) (roomId : Nat) : List Room :=
  rooms.map (fun rm =>
    if rm.id = roomId then { rm with status := RoomStatus.active } else rm)

/-- The prompt fetch of `startGame`: `.select("*").limit(100)` reads at
most the first 100 rows of the catalog. -/
def fetchPrompts (store : Store) : List Prompt :=
  store.prompts.take 100

/-- Host's start-game action (`startGame` in `RoomLobbyPage`), in the order
the code performs it: (1) set the room's status to `active`; (2) take
`firstPlayer = players[0]` from the roster snapshot `players`; (3) fetch at
most 100 prompts and throw `"No prompts available"` when none were read;
(4) pick a random prompt and insert the initial `game_state` row.  The
first component is the store after the call — on a step-(3) failure the
room-status write of step (1) has already been persisted.  An empty roster
reaches step (4) with `firstPlayer = undefined` and crashes on
`firstPlayer.id` (a `TypeError`), modelled as the error after step (1). -/
def startGame (store : Store) (players : List Player) (roomId : Nat)
    (r : Nat) : Store × Except String GameState :=
  let store1 : Store := { store with rooms := setRoomStatusActive store.rooms roomId }
  let prompts := fetchPrompts store1
  if h : prompts.length = 0 then
    (store1, Except.error "No prompts available")
  else
    match players with
    | [] => (store1, Except.error "TypeError: firstPlayer is undefined")
    | firstPlayer :: _ =>
        let randomPrompt := prompts.get ⟨r % prompts.length,
          Nat.mod_lt r (Nat.pos_of_ne_zero h)⟩
        let gs : GameState := {
          id := store1.gameStates.length,
          room_id := roomId,
          current_player_id := firstPlayer.id,
          current_prompt_id := some randomPrompt.id,
          status := RoomStatus.active }
        ({ store1 with gameStates := store1.gameStates ++ [gs] }, Except.ok gs)

/-- Characters remaining after stripping leading and trailing whitespace,
the effect of JavaScript `String.prototype.trim` on the character list. -/
def trimChars (cs : List Char) : List Char :=
  ((cs.dropWhile Char.isWhitespace).reverse.dropWhile Char.isWhitespace).reverse

/-- JavaScript `s.trim()`: strip leading and trailing whitespace. -/
def jsTrim (s : String) : String :=
  String.mk (trimChars s.data)

/-- Join flow (`handleJoinRoom` in `JoinRoomPage`): reject when nickname or
room code trims to empty, when no room has the given code, or when the room
is already `active`; otherwise insert the player row
(`is_host = false`, `turn_order = 0`).  The first component is the
`players` table after the call; the second surfaces either the
thrown error message or the inserted player. -/
def handleJoinRoom (rooms : List Room) (players : List Player)
    (nickname roomCode : String) : List Player × Except String Player :=
  if jsTrim nickname = "" ∨ jsTrim roomCode = "" then
    (players, Except.error "Please enter both nickname and room code")
  else
    match rooms.find? (fun rm => rm.code = roomCode) with
    | none => (players, Except.error "Room not found. Please check the room code.")
    | some room =>
        if room.status = RoomStatus.active then
          (players, Except.error "Game has already started")
        else
          let newPlayer : Player := {
            id := players.length,
            nickname := jsTrim nickname,
            room_id := room.id,
            is_host := false,
            turn_order := 0 }
          (players ++ [newPlayer], Except.ok newPlayer)

/-- Insertion step for the store's `ORDER BY created_at DESC`: keep earlier
rows whose `created_at` is `≥` the inserted row's. -/
def insertByCreatedAtDesc (x : ResponseRow) : List ResponseRow → List ResponseRow
  | [] => [x]
  | q :: rest =>
      if x.created_at ≤ q.created_at then q :: insertByCreatedAtDesc x rest
      else x :: q :: rest

/-- The store's `ORDER BY created_at DESC` on a list of response rows, as
an insertion sort. -/
def sortByCreatedAtDesc : List ResponseRow → List ResponseRow
  | [] => []
  | x :: rest => insertByCreatedAtDesc x (sortByCreatedAtDesc rest)

/-- Response listing (`fetchResponses` in `GamePage.tsx`): the room's
response rows ordered by creation time, most recent first
(`.eq("room_id", roomId).order("created_at", descending)`). -/
def fetchResponses (responses : List ResponseRow) (roomId : Nat) :
    List ResponseRow :=
  sortByCreatedAtDesc (responses.filter (fun x => x.room_id = roomId))

/-- Response submission (the insert of `handleSubmitResponse`): append a
row with the trimmed text; the store stamps `created_at` with the commit
time `now`. -/
def recordResponse (responses : List ResponseRow)
    (roomId playerId promptId : Nat) (text : String) (now : Nat) :
    List ResponseRow :=
  responses ++ [{
    id := responses.length,
    room_id := roomId,
    player_id := playerId,
    prompt_id := promptId,
    response := jsTrim text,
    created_at := now }]

/-!
Concrete fixtures used by witnesses and counterexamples: a waiting room,
its host Ann (registered with `turn_order = 1` by `handleCreateRoom`),
joiners Bob and Cal (`turn_order = 0` from `handleJoinRoom`), a one-prompt
catalog and a game state whose current player is Ann.
-/

/-- Fixture: the host player (created with `is_host = true`, `turn_order = 1`). -/
def annP : Player :=
  { id := 1, nickname := "Ann", room_id := 10, is_host := true, turn_order := 1 }

/-- Fixture: a joiner (created with `is_host = false`, `turn_order = 0`). -/
def bobP : Player :=
  { id := 2, nickname := "Bob", room_id := 10, is_host := false, turn_order := 0 }

/-- Fixture: a second joiner. -/
def calP : Player :=
  { id := 3, nickname := "Cal", room_id := 10, is_host := false, turn_order := 0 }

/-- Fixture: a three-player roster with distinct ids. -/
def ps3 : List Player := [annP, bobP, calP]

/-- Fixture: a waiting room with code 482913. -/
def roomW : Room := { id := 10, code := "482913", status := RoomStatus.waiting }

/-- Fixture: a truth prompt. -/
def promptT : Prompt := { id := 5, type := PromptType.truth, content := "Q" }

/-- Fixture: an active game state whose current player is Ann. -/
def gs0 : GameState :=
  { id := 7, room_id := 10, current_player_id := 1,
    current_prompt_id := some 5, status := RoomStatus.active }

/-- Fixture: the waiting room with host Ann, joiner Bob and a one-prompt
catalog, before the game starts. -/
def storeC3 : Store :=
  { rooms := [roomW], players := [annP, bobP],
    prompts := [promptT], gameStates := [] }

/-- Fixture: a catalog of 101 truth prompts with ids `0 .. 100`. -/
def catalog101 : List Prompt :=
  (List.range 101).map (fun k => { id := k, type := PromptType.truth, content := "Q" })

/-- Fixture: the 101st prompt of `catalog101` (id 100). -/
def prompt100 : Prompt := { id := 100, type := PromptType.truth, content := "Q" }

/-- Fixture: the waiting room with a 101-prompt catalog. -/
def storeC6 : Store :=
  { rooms := [roomW], players := [annP, bobP],
    prompts := catalog101, gameStates := [] }

/-- Fixture: an active room (a started game), for join rejection. -/
def roomA : Room := { id := 11, code := "111111", status := RoomStatus.active }

/-- Results of store operations are comparable outcome by outcome. -/
instance {e a : Type} [DecidableEq e] [DecidableEq a] :
    DecidableEq (Except e a)
  | Except.error x, Except.error y =>
      if h : x = y then Decidable.isTrue (h ▸ rfl)
      else Decidable.isFalse (fun hc => h (by cases hc; rfl))
  | Except.error _, Except.ok _ =>
      Decidable.isFalse (fun hc => Except.noConfusion hc)
  | Except.ok _, Except.error _ =>
      Decidable.isFalse (fun hc => Except.noConfusion hc)
  | Except.ok x, Except.ok y =>
      if h : x = y then Decidable.isTrue (h ▸ rfl)
      else Decidable.isFalse (fun hc => h (by cases hc; rfl))

/-- The index written by the turn advance is always within the fetched
roster's bounds when the roster is non-empty. -/
theorem nextPlayerIndex_lt (players : List Player) (pid : Nat)
    (h : players ≠ []) : nextPlayerIndex players pid < players.length := by
  have hlen : 0 < players.length := List.length_pos.mpr h
  have hN : (0 : Int) < (players.length : Int) := by exact_mod_cast hlen
  have hnn : 0 ≤ (findIndex players pid + 1) % (players.length : Int) :=
    Int.emod_nonneg _ (by omega)
  have hmod : (findIndex players pid + 1) % (players.length : Int) <
      (players.length : Int) := Int.emod_lt_of_pos _ hN
  unfold nextPlayerIndex
  omega

/-- C5: for every non-empty roster the advance-turn computation never
crashes and never writes an invalid player: even when `current_player_id`
is not found in the fetched roster (`findIndex` yields `-1`), the computed
next index is within roster bounds, and the written `current_player_id` is
the id of some player of the fetched roster. -/
theorem handleNextTurn_safe (players : List Player) (gs : GameState)
    (h : players ≠ []) :
    nextPlayerIndex players gs.current_player_id < players.length ∧
    ∃ p ∈ players, handleNextTurn players gs =
      some { gs with current_player_id := p.id } := by
  have hlt := nextPlayerIndex_lt players gs.current_player_id h
  refine ⟨hlt, players.get ⟨_, hlt⟩, List.get_mem _ _ _, ?_⟩
  unfold handleNextTurn
  rw [if_neg (fun h0 => h (List.length_eq_zero.mp h0)), List.get?_eq_get hlt]

/-- Witness for C5: a stale game state whose current player id 9 is absent
from the two-player roster still advances to a roster member (index 0). -/
theorem handleNextTurn_safe_witness :
    nextPlayerIndex [annP, bobP]
      ({ gs0 with current_player_id := 9 } : GameState).current_player_id <
      ([annP, bobP] : List Player).length ∧
    ∃ p ∈ [annP, bobP], handleNextTurn [annP, bobP] { gs0 with current_player_id := 9 } =
      some { { gs0 with current_player_id := 9 } with current_player_id := p.id } :=
  handleNextTurn_safe [annP, bobP] { gs0 with current_player_id := 9 } (by decide)

/-- C7: the advance-turn write patches only `current_player_id`; the
updated game state keeps `current_prompt_id`, `status`, `id` and `room_id`
unchanged (the stale prompt stays in the store until the next player picks
a type). -/
theorem handleNextTurn_frame (players : List Player) (gs gs' : GameState)
    (h : handleNextTurn players gs = some gs') :
    gs'.current_prompt_id = gs.current_prompt_id ∧ gs'.status = gs.status ∧
    gs'.id = gs.id ∧ gs'.room_id = gs.room_id := by
  unfold handleNextTurn at h
  split at h
  · cases h
    exact ⟨rfl, rfl, rfl, rfl⟩
  · split at h
    · cases h
      exact ⟨rfl, rfl, rfl, rfl⟩
    · cases h

/-- Witness for C7: advancing the fixture game state over the two-player
roster leaves prompt, status, id and room unchanged. -/
theorem handleNextTurn_frame_witness :
    ({ gs0 with current_player_id := 2 } : GameState).current_prompt_id =
      gs0.current_prompt_id ∧
    ({ gs0 with current_player_id := 2 } : GameState).status = gs0.status ∧
    ({ gs0 with current_player_id := 2 } : GameState).id = gs0.id ∧
    ({ gs0 with current_player_id := 2 } : GameState).room_id = gs0.room_id :=
  handleNextTurn_frame [annP, bobP] gs0 { gs0 with current_player_id := 2 }
    (by decide)

/-- Counterexample to C2: the advance write is unconditional, so duplicate
advance-turn triggers for the same submitted response are not forced to be
a single logical transition.  Here the second duplicate trigger reads the
game state only after the first trigger's write has landed (the re-fetch
performed on every change event), and `current_player_id` moves twice
(Ann to Bob, then Bob to Cal), not once. -/
theorem advanceTurnWrite_double_advance :
    (advanceTurnWrite ps3 gs0 gs0).current_player_id ≠ gs0.current_player_id ∧
    (advanceTurnWrite ps3 (advanceTurnWrite ps3 gs0 gs0)
        (advanceTurnWrite ps3 gs0 gs0)).current_player_id ≠
      (advanceTurnWrite ps3 gs0 gs0).current_player_id := by decide

/-- C2 amended: duplicate advance-turn triggers that compute from the same
pre-advance snapshot of the game state write the same `current_player_id`,
so the duplicate write is idempotent and `current_player_id` changes only
once; exactly-once for an arbitrary duplicate trigger is not guaranteed by
the write itself (see the counterexample) and relies on the submitting
client being the sole trigger. -/
theorem advanceTurnWrite_same_snapshot_idem (players : List Player)
    (snapshot store : GameState) :
    advanceTurnWrite players snapshot (advanceTurnWrite players snapshot store) =
      advanceTurnWrite players snapshot store := by
  unfold advanceTurnWrite
  split
  · rfl
  · split
    · rfl
    · rfl

/-- Two list lookups at equal indices agree. -/
theorem get_congr {α : Type} (l : List α) {a b : Nat} (ha : a < l.length)
    (hb : b < l.length) (hab : a = b) :
    l.get ⟨a, ha⟩ = l.get ⟨b, hb⟩ := by
  subst hab
  rfl

/-- On a roster with pairwise distinct ids, `findIndex` recovers the index
of the player stored there. -/
theorem findIndexO_get (players : List Player)
    (hnd : (players.map (fun p => p.id)).Nodup)
    (i : Nat) (hi : i < players.length) :
    findIndexO players (players.get ⟨i, hi⟩).id = some i := by
  induction players generalizing i with
  | nil => simp at hi
  | cons p rest ih =>
    rw [List.map_cons, List.nodup_cons] at hnd
    cases i with
    | zero => simp [findIndexO]
    | succ j =>
      have hj : j < rest.length := by simpa using hi
      have hget : (p :: rest).get ⟨j + 1, hi⟩ = rest.get ⟨j, hj⟩ := rfl
      have hne : ¬ p.id = ((p :: rest).get ⟨j + 1, hi⟩).id := by
        rw [hget]
        intro hEq
        exact hnd.1 (hEq ▸ List.mem_map_of_mem _ (List.get_mem rest j hj))
      rw [findIndexO, if_neg hne, hget, ih hnd.2 j hj]
      rfl

/-- One advance from the player at index `i` of a duplicate-free roster
moves the current player to index `(i + 1) % N`. -/
theorem handleNextTurn_get (players : List Player) (gs : GameState)
    (hnd : (players.map (fun p => p.id)).Nodup)
    (i : Nat) (hi : i < players.length)
    (hcur : gs.current_player_id = (players.get ⟨i, hi⟩).id) :
    handleNextTurn players gs = some { gs with current_player_id :=
      (players.get ⟨(i + 1) % players.length,
        Nat.mod_lt _ (Nat.lt_of_le_of_lt (Nat.zero_le i) hi)⟩).id } := by
  have hN0 : ¬ players.length = 0 := by omega
  have hidx : nextPlayerIndex players gs.current_player_id =
      (i + 1) % players.length := by
    unfold nextPlayerIndex findIndex
    rw [hcur, findIndexO_get players hnd i hi]
    have h1 : ((i : Int) + 1) = ((i + 1 : Nat) : Int) := by norm_cast
    rw [h1, ← Int.ofNat_emod]
    exact Int.toNat_natCast _
  unfold handleNextTurn
  rw [if_neg hN0, hidx,
    List.get?_eq_get (Nat.mod_lt _ (Nat.lt_of_le_of_lt (Nat.zero_le i) hi))]

/-- Iterating the advance `k` times from index `i` lands on index
`(i + k) % N`: the advance steps through the roster as the cyclic
successor permutation. -/
theorem advanceN_get (players : List Player)
    (hnd : (players.map (fun p => p.id)).Nodup) (k : Nat) :
    ∀ (gs : GameState) (i : Nat) (hi : i < players.length),
    gs.current_player_id = (players.get ⟨i, hi⟩).id →
    advanceN players k gs = some { gs with current_player_id :=
      (players.get ⟨(i + k) % players.length,
        Nat.mod_lt _ (Nat.lt_of_le_of_lt (Nat.zero_le i) hi)⟩).id } := by
  induction k with
  | zero =>
    intro gs i hi hcur
    have hik : (i + 0) % players.length = i := by
      rw [Nat.add_zero]
      exact Nat.mod_eq_of_lt hi
    rw [advanceN]
    rw [get_congr players _ hi hik, ← hcur]
  | succ k ih =>
    intro gs i hi hcur
    have hpos : 0 < players.length := Nat.lt_of_le_of_lt (Nat.zero_le i) hi
    have hi1 : (i + 1) % players.length < players.length := Nat.mod_lt _ hpos
    rw [advanceN, handleNextTurn_get players gs hnd i hi hcur, Option.some_bind]
    rw [ih _ ((i + 1) % players.length) hi1 rfl]
    have hik : ((i + 1) % players.length + k) % players.length =
        (i + (k + 1)) % players.length := by
      rw [Nat.mod_add_mod]
      congr 1
      omega
    rw [get_congr players _ (Nat.mod_lt _ hpos) hik]

/-- C1: turn advance is a cyclic permutation of the fetched roster: from
the player at index `i` of a duplicate-free roster, one advance moves
`current_player_id` to the player at index `(i + 1) % N`, and `N`
consecutive advances return `current_player_id` to its starting value. -/
theorem handleNextTurn_cyclic (players : List Player) (gs : GameState)
    (hnd : (players.map (fun p => p.id)).Nodup)
    (i : Nat) (hi : i < players.length)
    (hcur : gs.current_player_id = (players.get ⟨i, hi⟩).id) :
    handleNextTurn players gs = some { gs with current_player_id :=
      (players.get ⟨(i + 1) % players.length,
        Nat.mod_lt _ (Nat.lt_of_le_of_lt (Nat.zero_le i) hi)⟩).id } ∧
    ∃ gsN, advanceN players players.length gs = some gsN ∧
      gsN.current_player_id = gs.current_player_id := by
  refine ⟨handleNextTurn_get players gs hnd i hi hcur, ?_⟩
  refine ⟨_, advanceN_get players hnd players.length gs i hi hcur, ?_⟩
  have hik : (i + players.length) % players.length = i := by
    rw [Nat.add_mod_right]
    exact Nat.mod_eq_of_lt hi
  rw [get_congr players _ hi hik, ← hcur]

/-- Witness for C1: starting from Ann (index 0) of the three-player
roster, one advance selects Bob (index 1) and three advances return to
Ann. -/
theorem handleNextTurn_cyclic_witness :
    handleNextTurn ps3 gs0 = some { gs0 with current_player_id :=
      (ps3.get ⟨(0 + 1) % ps3.length, by decide⟩).id } ∧
    ∃ gsN, advanceN ps3 ps3.length gs0 = some gsN ∧
      gsN.current_player_id = gs0.current_player_id :=
  handleNextTurn_cyclic ps3 gs0 (by decide) 0 (by decide) (by decide)

/-- C4: for every prompt type, when the catalog holds zero prompts of that
type, choosing that type surfaces the `"No prompts found"` error thrown
before the store update, and the stored `current_prompt_id` (and the whole
game state) is left unchanged by the failed operation. -/
theorem handleTypeSelection_no_prompts (catalog : List Prompt)
    (t : PromptType) (gs : GameState) (r : Nat)
    (h : ∀ p ∈ catalog, p.type ≠ t) :
    handleTypeSelection catalog t gs r = (gs, some "No prompts found") := by
  have hfil : catalog.filter (fun p => p.type = t) = [] := by
    rw [List.filter_eq_nil_iff]
    intro p hp
    simp [h p hp]
  unfold handleTypeSelection
  simp [hfil]

/-- Witness for C4: the fixture catalog has zero dare prompts, so choosing
dare fails with the surfaced error and leaves the game state untouched. -/
theorem handleTypeSelection_no_prompts_witness :
    handleTypeSelection [promptT] PromptType.dare gs0 0 =
      (gs0, some "No prompts found") :=
  handleTypeSelection_no_prompts [promptT] PromptType.dare gs0 0 (by decide)

/-- Membership in an `insertByTurnOrder` result. -/
theorem mem_insertByTurnOrder {a p : Player} {l : List Player} :
    a ∈ insertByTurnOrder p l ↔ a = p ∨ a ∈ l := by
  induction l with
  | nil => simp [insertByTurnOrder]
  | cons q rest ih =>
    rw [insertByTurnOrder]
    split
    · rw [List.mem_cons, ih, List.mem_cons]
      tauto
    · simp only [List.mem_cons]

/-- Inserting into a roster sorted ascending by `turn_order` keeps it
sorted. -/
theorem pairwise_insertByTurnOrder (p : Player) (l : List Player)
    (h : l.Pairwise (fun a b => a.turn_order ≤ b.turn_order)) :
    (insertByTurnOrder p l).Pairwise (fun a b => a.turn_order ≤ b.turn_order) := by
  induction l with
  | nil => simp [insertByTurnOrder]
  | cons q rest ih =>
    rw [List.pairwise_cons] at h
    rw [insertByTurnOrder]
    split
    · rw [List.pairwise_cons]
      refine ⟨?_, ih h.2⟩
      intro a ha
      rcases mem_insertByTurnOrder.mp ha with rfl | ha
      · assumption
      · exact h.1 a ha
    · rw [List.pairwise_cons]
      have hpq : p.turn_order ≤ q.turn_order := le_of_not_le (by assumption)
      refine ⟨?_, List.pairwise_cons.mpr h⟩
      intro a ha
      rcases List.mem_cons.mp ha with rfl | ha
      · exact hpq
      · exact le_trans hpq (h.1 a ha)

/-- The store's `ORDER BY turn_order ASC` yields a roster sorted ascending
by `turn_order`. -/
theorem sortByTurnOrder_pairwise (l : List Player) :
    (sortByTurnOrder l).Pairwise (fun a b => a.turn_order ≤ b.turn_order) := by
  induction l with
  | nil => simp [sortByTurnOrder]
  | cons p rest ih => exact pairwise_insertByTurnOrder p _ ih


/-- Counterexample to C3: Ann is the room's host (`turn_order = 1`), Bob a
joiner (`turn_order = 0`); ordering the roster ascending by `turn_order`
puts the joiner first and the host last, so `startGame` sets the initial
`current_player_id` to Bob, not to the host. -/
theorem startGame_first_player_not_host :
    annP.is_host = true ∧ bobP.is_host = false ∧
    fetchPlayers storeC3 10 = [bobP, annP] ∧
    (startGame storeC3 (fetchPlayers storeC3 10) 10 0).2 =
      Except.ok { id := 0, room_id := 10, current_player_id := bobP.id,
                  current_prompt_id := some promptT.id,
                  status := RoomStatus.active } ∧
    bobP.id ≠ annP.id := by decide

/-- C3 amended: when the host starts the game, the initial
`current_player_id` is the first player of the roster ordered ascending by
`turn_order` — a player of minimal `turn_order`.  Since the host is
registered with `turn_order = 1` and joiners with `turn_order = 0`, the
host is ordered last, not first: with at least one joiner the opening
player is a joiner, not the host. -/
theorem startGame_first_by_turn_order (store : Store) (roomId r : Nat)
    (p : Player) (rest : List Player)
    (hroster : fetchPlayers store roomId = p :: rest)
    (hp : store.prompts ≠ []) :
    (∃ gs, (startGame store (fetchPlayers store roomId) roomId r).2 =
        Except.ok gs ∧ gs.current_player_id = p.id) ∧
    ∀ q ∈ fetchPlayers store roomId, p.turn_order ≤ q.turn_order := by
  constructor
  · rw [hroster]
    unfold startGame
    have hlen : ¬ (fetchPrompts
        { store with rooms := setRoomStatusActive store.rooms roomId }).length = 0 := by
      have h0 : 0 < store.prompts.length := List.length_pos.mpr hp
      show ¬ (store.prompts.take 100).length = 0
      rw [List.length_take]
      omega
    rw [dif_neg hlen]
    exact ⟨_, rfl, rfl⟩
  · intro q hq
    have hpw := sortByTurnOrder_pairwise
      (store.players.filter (fun x => x.room_id = roomId))
    rw [show sortByTurnOrder (store.players.filter (fun x => x.room_id = roomId)) =
      fetchPlayers store roomId from rfl, hroster] at hpw
    rw [hroster] at hq
    rcases List.mem_cons.mp hq with rfl | hq
    · exact le_refl _
    · exact (List.pairwise_cons.mp hpw).1 q hq

/-- Witness for the amended C3: on the fixture store the opening player is
Bob, the joiner of minimal `turn_order`. -/
theorem startGame_first_by_turn_order_witness :
    (∃ gs, (startGame storeC3 (fetchPlayers storeC3 10) 10 0).2 =
        Except.ok gs ∧ gs.current_player_id = bobP.id) ∧
    ∀ q ∈ fetchPlayers storeC3 10, bobP.turn_order ≤ q.turn_order :=
  startGame_first_by_turn_order storeC3 10 0 bobP [annP] (by decide) (by decide)

/-- Every game state created by `startGame` draws its opening prompt from
the at-most-100 fetched catalog rows. -/
theorem startGame_prompt_mem (store : Store) (players : List Player)
    (roomId r : Nat) (gs : GameState)
    (h : (startGame store players roomId r).2 = Except.ok gs) :
    ∃ p ∈ store.prompts.take 100, gs.current_prompt_id = some p.id := by
  unfold startGame at h
  by_cases h0 : (fetchPrompts
      { store with rooms := setRoomStatusActive store.rooms roomId }).length = 0
  · rw [dif_pos h0] at h
    simp at h
  · rw [dif_neg h0] at h
    cases players with
    | nil => simp at h
    | cons fp rest =>
      injection h with h2
      subst h2
      exact ⟨_, List.get_mem _ _ _, rfl⟩

/-- Counterexample to C6: with a 101-prompt catalog, the prompt fetch of
`startGame` is capped at 100 rows (`.limit(100)`), so the 101st prompt is
never a possible choice for the initial `current_prompt_id`, whatever the
random draw. -/
theorem startGame_prompt_not_uniform :
    ¬ ∀ p ∈ storeC6.prompts, ∃ r gs,
      (startGame storeC6 (fetchPlayers storeC6 10) 10 r).2 = Except.ok gs ∧
      gs.current_prompt_id = some p.id := by
  intro hall
  have hmem : prompt100 ∈ storeC6.prompts := by decide
  obtain ⟨r, gs, hok, hid⟩ := hall prompt100 hmem
  obtain ⟨p, hp, hid2⟩ := startGame_prompt_mem _ _ _ _ _ hok
  rw [hid] at hid2
  have hno : ∀ q ∈ storeC6.prompts.take 100, ¬ q.id = 100 := by decide
  exact hno p hp (Option.some_injective _ hid2).symm

/-- C6 amended: the opening prompt is drawn uniformly at random from the
first at-most-100 fetched catalog rows: every prompt among the first 100
of the catalog (hence, for a catalog of at most 100 prompts, every prompt
of either type) is a possible choice for the initial
`current_prompt_id`. -/
theorem startGame_prompt_possible (store : Store) (roomId : Nat)
    (firstPlayer : Player) (rest : List Player) (p : Prompt)
    (hp : p ∈ store.prompts.take 100) :
    ∃ r gs, (startGame store (firstPlayer :: rest) roomId r).2 =
      Except.ok gs ∧ gs.current_prompt_id = some p.id := by
  obtain ⟨⟨i, hilt⟩, hget⟩ := List.mem_iff_get.mp hp
  refine ⟨i, ?_⟩
  unfold startGame
  have hlen : ¬ (fetchPrompts
      { store with rooms := setRoomStatusActive store.rooms roomId }).length = 0 := by
    show ¬ (store.prompts.take 100).length = 0
    omega
  rw [dif_neg hlen]
  refine ⟨_, rfl, ?_⟩
  show some ((store.prompts.take 100).get
    ⟨i % (store.prompts.take 100).length, _⟩).id = some p.id
  rw [get_congr _ _ hilt (Nat.mod_eq_of_lt hilt), hget]

/-- Witness for the amended C6: the fixture prompt is within the first 100
catalog rows and is a possible opening prompt. -/
theorem startGame_prompt_possible_witness :
    ∃ r gs, (startGame storeC3 (bobP :: [annP]) 10 r).2 =
      Except.ok gs ∧ gs.current_prompt_id = some promptT.id :=
  startGame_prompt_possible storeC3 10 bobP [annP] promptT (by decide)

/-- Membership in an `insertByCreatedAtDesc` result. -/
theorem mem_insertByCreatedAtDesc {a x : ResponseRow} {l : List ResponseRow} :
    a ∈ insertByCreatedAtDesc x l ↔ a = x ∨ a ∈ l := by
  induction l with
  | nil => simp [insertByCreatedAtDesc]
  | cons q rest ih =>
    rw [insertByCreatedAtDesc]
    split
    · rw [List.mem_cons, ih, List.mem_cons]
      tauto
    · simp only [List.mem_cons]

/-- Inserting into a response list sorted descending by `created_at` keeps
it sorted. -/
theorem pairwise_insertByCreatedAtDesc (x : ResponseRow) (l : List ResponseRow)
    (h : l.Pairwise (fun a b => b.created_at ≤ a.created_at)) :
    (insertByCreatedAtDesc x l).Pairwise
      (fun a b => b.created_at ≤ a.created_at) := by
  induction l with
  | nil => simp [insertByCreatedAtDesc]
  | cons q rest ih =>
    rw [List.pairwise_cons] at h
    rw [insertByCreatedAtDesc]
    split
    · rw [List.pairwise_cons]
      refine ⟨?_, ih h.2⟩
      intro a ha
      rcases mem_insertByCreatedAtDesc.mp ha with rfl | ha2
      · assumption
      · exact h.1 a ha2
    · rw [List.pairwise_cons]
      have hxq : q.created_at ≤ x.created_at := le_of_not_le (by assumption)
      refine ⟨?_, List.pairwise_cons.mpr h⟩
      intro a ha
      rcases List.mem_cons.mp ha with rfl | ha
      · exact hxq
      · exact le_trans (h.1 a ha) hxq

/-- The store's `ORDER BY created_at DESC` yields a list sorted descending
by creation time. -/
theorem sortByCreatedAtDesc_pairwise (l : List ResponseRow) :
    (sortByCreatedAtDesc l).Pairwise (fun a b => b.created_at ≤ a.created_at) := by
  induction l with
  | nil => simp [sortByCreatedAtDesc]
  | cons x rest ih => exact pairwise_insertByCreatedAtDesc x _ ih

/-- Sorting after appending a row stamped strictly later than every
existing row puts the new row at the head. -/
theorem sortByCreatedAtDesc_fresh (l : List ResponseRow) (x : ResponseRow)
    (h : ∀ q ∈ l, q.created_at < x.created_at) :
    sortByCreatedAtDesc (l ++ [x]) = x :: sortByCreatedAtDesc l := by
  induction l with
  | nil => rfl
  | cons a rest ih =>
    rw [List.cons_append, sortByCreatedAtDesc,
      ih (fun q hq => h q (List.mem_cons_of_mem a hq)),
      insertByCreatedAtDesc,
      if_pos (le_of_lt (h a (List.mem_cons_self a rest)))]
    rfl

/-- C8: `listResponses` returns the room's responses ordered by creation
time descending (most recent first), and `recordResponse` followed
immediately by `listResponses` — the inserted row being stamped later than
every existing row — includes the newly recorded response at the head of
the returned sequence. -/
theorem fetchResponses_ordered_and_head (responses : List ResponseRow)
    (roomId playerId promptId : Nat) (text : String) (now : Nat)
    (hfresh : ∀ q ∈ responses, q.created_at < now) :
    (fetchResponses responses roomId).Pairwise
      (fun a b => b.created_at ≤ a.created_at) ∧
    ∃ newRow,
      recordResponse responses roomId playerId promptId text now =
        responses ++ [newRow] ∧
      newRow.room_id = roomId ∧ newRow.response = jsTrim text ∧
      newRow.created_at = now ∧
      fetchResponses (recordResponse responses roomId playerId promptId text now)
        roomId = newRow :: fetchResponses responses roomId := by
  refine ⟨sortByCreatedAtDesc_pairwise _, _, rfl, rfl, rfl, rfl, ?_⟩
  unfold recordResponse fetchResponses
  rw [List.filter_append]
  have hone : List.filter (fun q => q.room_id = roomId)
      [({ id := responses.length, room_id := roomId, player_id := playerId,
          prompt_id := promptId, response := jsTrim text,
          created_at := now } : ResponseRow)] =
      [{ id := responses.length, room_id := roomId, player_id := playerId,
         prompt_id := promptId, response := jsTrim text, created_at := now }] := by
    simp
  rw [hone]
  exact sortByCreatedAtDesc_fresh _ _
    (fun q hq => hfresh q (List.mem_filter.mp hq).1)

/-- Witness for C8: recording a response into an empty log yields a
singleton, head-positioned, ordered log. -/
theorem fetchResponses_ordered_and_head_witness :
    (fetchResponses [] 10).Pairwise
      (fun a b => b.created_at ≤ a.created_at) ∧
    ∃ newRow,
      recordResponse [] 10 2 5 " hi " 4 = [] ++ [newRow] ∧
      newRow.room_id = 10 ∧ newRow.response = jsTrim " hi " ∧
      newRow.created_at = 4 ∧
      fetchResponses (recordResponse [] 10 2 5 " hi " 4) 10 =
        newRow :: fetchResponses [] 10 :=
  fetchResponses_ordered_and_head [] 10 2 5 " hi " 4 (by simp)

/-- C9: joining a room is rejected with a distinct error per failure case
— one message for an empty (after trimming) nickname or room code, another
for an unknown room code, and a third when the room's status is already
`active` — and in every rejected case the `players` table is returned
unchanged: no player row is inserted. -/
theorem handleJoinRoom_rejections (rooms : List Room) (players : List Player)
    (nickname roomCode : String) :
    (jsTrim nickname = "" ∨ jsTrim roomCode = "" →
      handleJoinRoom rooms players nickname roomCode =
        (players, Except.error "Please enter both nickname and room code")) ∧
    (¬ (jsTrim nickname = "" ∨ jsTrim roomCode = "") →
      rooms.find? (fun rm => rm.code = roomCode) = none →
      handleJoinRoom rooms players nickname roomCode =
        (players, Except.error "Room not found. Please check the room code.")) ∧
    (∀ room, ¬ (jsTrim nickname = "" ∨ jsTrim roomCode = "") →
      rooms.find? (fun rm => rm.code = roomCode) = some room →
      room.status = RoomStatus.active →
      handleJoinRoom rooms players nickname roomCode =
        (players, Except.error "Game has already started")) ∧
    ("Please enter both nickname and room code" ≠
        "Room not found. Please check the room code." ∧
      "Please enter both nickname and room code" ≠ "Game has already started" ∧
      "Room not found. Please check the room code." ≠
        "Game has already started") := by
  refine ⟨?_, ?_, ?_, by decide⟩
  · intro h
    unfold handleJoinRoom
    rw [if_pos h]
  · intro h hf
    unfold handleJoinRoom
    rw [if_neg h, hf]
  · intro room h hf hs
    unfold handleJoinRoom
    rw [if_neg h, hf]
    simp [hs]

/-- Witness for C9: on a store holding a waiting room 482913 and an active
room 111111, the three rejection cases each surface their own error and
leave the players table untouched. -/
theorem handleJoinRoom_rejections_witness :
    handleJoinRoom [roomW, roomA] [annP] "  " "482913" =
      ([annP], Except.error "Please enter both nickname and room code") ∧
    handleJoinRoom [roomW, roomA] [annP] "Zoe" "999999" =
      ([annP], Except.error "Room not found. Please check the room code.") ∧
    handleJoinRoom [roomW, roomA] [annP] "Zoe" "111111" =
      ([annP], Except.error "Game has already started") := by
  refine ⟨?_, ?_, ?_⟩
  · exact (handleJoinRoom_rejections [roomW, roomA] [annP] "  " "482913").1
      (Or.inl (by decide))
  · exact (handleJoinRoom_rejections [roomW, roomA] [annP] "Zoe" "999999").2.1
      (by decide) (by decide)
  · exact (handleJoinRoom_rejections [roomW, roomA] [annP] "Zoe" "111111").2.2.1
      roomA (by decide) (by decide) (by decide)

/-- C10: starting the game is not atomic on failure: when the prompt
catalog is empty, `startGame` has already written `status = active` to the
room before the `"No prompts available"` failure is raised, and no
`game_state` row is inserted — the room is left active with no game
state. -/
theorem startGame_not_atomic (store : Store) (players : List Player)
    (roomId r : Nat) (hcat : store.prompts = []) :
    (startGame store players roomId r).2 =
      Except.error "No prompts available" ∧
    (startGame store players roomId r).1.rooms =
      setRoomStatusActive store.rooms roomId ∧
    (startGame store players roomId r).1.gameStates = store.gameStates := by
  have h0 : (fetchPrompts
      { store with rooms := setRoomStatusActive store.rooms roomId }).length = 0 := by
    show (store.prompts.take 100).length = 0
    rw [hcat]
    rfl
  unfold startGame
  rw [dif_pos h0]
  exact ⟨rfl, rfl, rfl⟩

/-- Witness for C10: starting the fixture room with an empty catalog marks
the room active, creates no game state, and surfaces the error. -/
theorem startGame_not_atomic_witness :
    (startGame { storeC3 with prompts := [] } [bobP, annP] 10 0).2 =
      Except.error "No prompts available" ∧
    (startGame { storeC3 with prompts := [] } [bobP, annP] 10 0).1.rooms =
      setRoomStatusActive ({ storeC3 with prompts := [] } : Store).rooms 10 ∧
    (startGame { storeC3 with prompts := [] } [bobP, annP] 10 0).1.gameStates =
      ({ storeC3 with prompts := [] } : Store).gameStates :=
  startGame_not_atomic { storeC3 with prompts := [] } [bobP, annP] 10 0 rfl
